import Mathlib

/-!
# Verification of the document lifecycle & sharing subsystem

Shallow embedding of the core of the `secure_government_document` repository:
`src/services/documentService.js`, `src/hooks/useDocuments.jsx` (document cache),
`src/utils/logger.js`, the Settings-page upload component (`src/components/settings/Settings.jsx`,
second half of the file), the SharedDocuments component (`handleDownload`), and the
helper `maskAadhaar` (`src/utils/helpers.js`).

Modelling conventions:
* Firestore collections are association lists `List (String × record)` keyed by generated id.
* `Date` values are `Nat` timestamps (milliseconds).
* A JS `throw new Error(msg)` is an `Except` error; each distinct throw site gets its own
  constructor of `DocError` so that error classes can be distinguished.
* `Logger` calls never touch the documents/shares collections and never fail the caller
  (`logToFirestore` swallows all errors), so the document-service operations omit them;
  the logger itself is modelled separately for the audit-trail claims.
* External I/O that can fail (blob upload, metadata insert, blob delete, the durable audit
  sink, localStorage) is modelled by explicit `Bool` success parameters.
-/

/-- A row of the `documents` collection, with the exact fields written by
`DocumentService.uploadDocument` (documentService.js:61-79).  `deletedAt` is absent at
creation (`none`) and set by `deleteDocument`. -/
structure DocRecord where
  userId : String
  fileName : String
  originalFileName : String
  storagePath : String
  fileType : String
  fileUrl : String
  documentType : String
  description : String
  uploadedAt : Nat
  updatedAt : Nat
  isShared : Bool
  sharedWith : List String
  fileSize : Nat
  status : String
  downloadCount : Nat
  lastAccessed : Nat
  deletedAt : Option Nat := none
  deriving Repr, DecidableEq

/-- A row of the `sharedDocuments` collection, with the exact fields written by
`DocumentService.shareDocument` (documentService.js:362-373). -/
structure ShareRecord where
  documentId : String
  ownerId : String
  ownerEmail : String
  sharedWith : String
  shareMethod : String
  permissions : String
  sharedAt : Nat
  status : String
  documentName : String
  documentType : String
  deriving Repr, DecidableEq

/-- The persistent state the service operates on: the two Firestore collections and the
set of blob-store paths that have been written (Firebase Storage). -/
structure Db where
  documents : List (String × DocRecord)
  shares : List (String × ShareRecord)
  blobPaths : List String
  deriving Repr, DecidableEq

/-- Firestore `getDoc` on an association-list collection. -/
def getById (coll : List (String × α)) (id : String) : Option α :=
  (coll.find? (fun p => p.1 == id)).map Prod.snd

/-- Firestore `updateDoc`: apply `f` to the row(s) with key `id`. -/
def updateById (coll : List (String × α)) (id : String) (f : α → α) : List (String × α) :=
  coll.map (fun p => if p.1 == id then (p.1, f p.2) else p)

/-- `Map.set` semantics used by the hook's documents cache: replace the entry if the key
is present, otherwise append it. -/
def setById (coll : List (String × α)) (id : String) (v : α) : List (String × α) :=
  if (coll.find? (fun p => p.1 == id)).isSome then
    coll.map (fun p => if p.1 == id then (id, v) else p)
  else coll ++ [(id, v)]

/-- One constructor per distinct `throw new Error(...)` site in documentService.js.
`accessDenied` ('Access denied. You do not have permission to view this document.') is the
PermissionDenied-class error; `documentNotFound` ('Document not found') is the
NotFound-class error.  `downloadFailed`, `updateFailed`, `deleteFailed`, `shareFailed` are
the generic catch-all rethrows of the corresponding operations. -/
inductive DocError where
  | documentNotFound
  | accessDenied
  | downloadFailed
  | updateFailed
  | deleteFailed
  | shareFailed
  | uploadStorageFailed
  | metadataSaveFailed
  deriving Repr, DecidableEq

/-- `DocumentService.getDocument(documentId, userId)` (documentService.js:175-215).
Fails with `documentNotFound` when no row has that id; fails with `accessDenied` when the
caller is neither the stored `userId` nor listed in `sharedWith`
(`data.userId !== userId && !data.sharedWith.includes(userId)`).  Note: the row's
`status` field is never consulted.  On success the row's `lastAccessed` is bumped and the
record is returned with `lastAccessed := now`. -/
def getDocument (db : Db) (documentId userId : String) (now : Nat) :
    Except DocError (DocRecord × Db) :=
  match getById db.documents documentId with
  | none => .error .documentNotFound
  | some data =>
    if !(data.userId == userId) && !(data.sharedWith.contains userId) then
      .error .accessDenied
    else
      let db1 := { db with
        documents := updateById db.documents documentId (fun r => { r with lastAccessed := now }) }
      .ok ({ data with lastAccessed := now }, db1)

/-- `DocumentService.downloadDocument(documentId, userId)` (documentService.js:223-264).
Calls `getDocument` (same access check, no permission-level check), then increments
`downloadCount` and bumps `lastAccessed`.  The subsequent link-creation step calls
`document.createElement('a')`, but `document` is the local constant holding the fetched
record (it shadows the global DOM document), so the call throws; the surrounding catch
rethrows the generic 'Download failed. Please try again.' error.  The catch also rewraps
any error thrown by `getDocument`, so the operation never surfaces `accessDenied` or
`documentNotFound`.  The Firestore increment has already been awaited, so it persists. -/
def downloadDocument (db : Db) (documentId userId : String) (now : Nat) :
    Db × Except DocError Unit :=
  match getDocument db documentId userId now with
  | .error _ => (db, .error .downloadFailed)
  | .ok (document, db1) =>
    let db2 := { db1 with
      documents := updateById db1.documents documentId
        (fun r => { r with downloadCount := document.downloadCount + 1, lastAccessed := now }) }
    (db2, .error .downloadFailed)

/-- The update patch applied by `DocumentService.updateDocument`.  The JS code spreads
whatever keys the caller passes (`{...updates, updatedAt: new Date()}`); this record
enumerates the fields exercised in this development, each optional. -/
structure DocPatch where
  documentType : Option String := none
  description : Option String := none
  status : Option String := none
  downloadCount : Option Nat := none
  deriving Repr, DecidableEq

/-- JS object spread `{...record, ...updates, updatedAt: now}`. -/
def applyPatch (r : DocRecord) (p : DocPatch) (now : Nat) : DocRecord :=
  { r with
    documentType := p.documentType.getD r.documentType
    description := p.description.getD r.description
    status := p.status.getD r.status
    downloadCount := p.downloadCount.getD r.downloadCount
    updatedAt := now }

/-- `DocumentService.updateDocument(userId, documentId, updates)` (documentService.js:273-301).
The only access control is the `getDocument` call ('Security check'), which admits the
owner and anyone in `sharedWith`; it also bumps the row's `lastAccessed`.  Any error is
rewrapped as the generic `updateFailed`. -/
def updateDocument (db : Db) (userId documentId : String) (updates : DocPatch) (now : Nat) :
    Db × Except DocError Unit :=
  match getDocument db documentId userId now with
  | .error _ => (db, .error .updateFailed)
  | .ok (_, db1) =>
    ({ db1 with
        documents := updateById db1.documents documentId (fun r => applyPatch r updates now) },
      .ok ())

/-- `DocumentService.deleteDocument(userId, documentId, storagePath)`
(documentService.js:310-347).  Soft delete: status := 'deleted', `deletedAt`/`updatedAt`
set; then best-effort blob deletion (failure only logged, modelled by `blobDeleteOk`).
Access control is again the `getDocument` call. -/
def deleteDocument (db : Db) (userId documentId storagePath : String) (now : Nat)
    (blobDeleteOk : Bool) : Db × Except DocError Unit :=
  match getDocument db documentId userId now with
  | .error _ => (db, .error .deleteFailed)
  | .ok (_, db1) =>
    let db2 := { db1 with
      documents := updateById db1.documents documentId
        (fun r => { r with status := "deleted", deletedAt := some now, updatedAt := now }) }
    let db3 :=
      if blobDeleteOk then
        { db2 with blobPaths := db2.blobPaths.filter (fun p => !(p == storagePath)) }
      else db2
    (db3, .ok ())

/-- Filters accepted by `DocumentService.getUserDocuments`. -/
structure DocFilters where
  documentType : Option String := none
  docLimit : Option Nat := none
  deriving Repr, DecidableEq

/-- `DocumentService.getUserDocuments(userId, filters)` (documentService.js:118-167).
Firestore query: `userId == uid`, `status == 'active'`, optional `documentType` equality
(skipped for the falsy/'all' filter), ordered by `uploadedAt` descending, optional limit. -/
def getUserDocuments (db : Db) (userId : String) (filters : DocFilters) :
    List (String × DocRecord) :=
  let base : List (String × DocRecord) := db.documents.filter
    (fun p => p.2.userId == userId && p.2.status == "active")
  let base : List (String × DocRecord) :=
    match filters.documentType with
    | some t => if !(t == "all") then base.filter (fun p => p.2.documentType == t) else base
    | none => base
  let sorted := base.mergeSort (fun a b => b.2.uploadedAt ≤ a.2.uploadedAt)
  match filters.docLimit with
  | some n => sorted.take n
  | none => sorted

/-- A browser `File` object as consumed by the upload and validation code:
`name`, `type` (MIME type) and `size` (bytes). -/
structure FileInput where
  name : String
  type : String
  size : Nat
  deriving Repr, DecidableEq

/-- The metadata object passed to `DocumentService.uploadDocument`. -/
structure UploadMeta where
  documentType : String
  description : String
  deriving Repr, DecidableEq

/-- `generateUniqueFilename(originalName, documentType)` (utils/helpers.js):
`documentType + '_' + Date.now() + '.' + extension`, the extension being the part after
the last '.' (`originalName.split('.').pop()`). -/
def generateUniqueFilename (originalName documentType : String) (timestamp : Nat) : String :=
  documentType ++ "_" ++ toString timestamp ++ "." ++ (originalName.splitOn ".").getLastD ""

/-- The blob store's `getDownloadURL`, modelled as a function of the storage path. -/
def blobUrlFor (path : String) : String := "blob://" ++ path

/-- `DocumentService.uploadDocument(userId, file, metadata, onProgress)`
(documentService.js:34-110).  The function performs no validation of the file or the
metadata: it derives the storage path, uploads the bytes (`blobOk` models the resumable
upload's success), obtains the download URL and inserts the metadata row with
status 'active' and downloadCount 0 (`dbOk` models the `addDoc` success, `newId` the
generated row id).  If the blob write fails nothing is persisted; if the metadata insert
fails the blob is left orphaned. -/
def uploadDocument (db : Db) (userId : String) (file : FileInput) (metadata : UploadMeta)
    (timestamp : Nat) (blobOk dbOk : Bool) (newId : String) : Db × Except DocError String :=
  let fileName := generateUniqueFilename file.name metadata.documentType timestamp
  let path := "documents/" ++ userId ++ "/" ++ fileName
  if !blobOk then (db, .error .uploadStorageFailed)
  else
    let db1 := { db with blobPaths := db.blobPaths ++ [path] }
    if !dbOk then (db1, .error .metadataSaveFailed)
    else
      let row : DocRecord :=
        { userId := userId
          fileName := file.name
          originalFileName := file.name
          storagePath := path
          fileType := file.type
          fileUrl := blobUrlFor path
          documentType := metadata.documentType
          description := metadata.description
          uploadedAt := timestamp
          updatedAt := timestamp
          isShared := false
          sharedWith := []
          fileSize := file.size
          status := "active"
          downloadCount := 0
          lastAccessed := timestamp }
      ({ db1 with documents := db1.documents ++ [(newId, row)] }, .ok newId)

/-- The `shareData` object passed to `DocumentService.shareDocument`.  The JS code reads
`shareData.email || shareData.aadhaar`; the absent/empty identifier is `none`. -/
structure ShareData where
  email : Option String := none
  aadhaar : Option String := none
  permissions : String
  ownerEmail : String
  deriving Repr, DecidableEq

/-- `shareData.email || shareData.aadhaar`. -/
def shareTarget (sd : ShareData) : String := sd.email.getD (sd.aadhaar.getD "")

/-- `DocumentService.shareDocument(userId, documentId, shareData)`
(documentService.js:356-402).  Access control is the `getDocument` call; creates a
ShareGrant row with status 'active', marks the document shared and appends the target to
its `sharedWith`; re-sharing appends another grant without deduplication. -/
def shareDocument (db : Db) (userId documentId : String) (shareData : ShareData)
    (now : Nat) (newShareId : String) : Db × Except DocError String :=
  match getDocument db documentId userId now with
  | .error _ => (db, .error .shareFailed)
  | .ok (document, db1) =>
    let shareRecord : ShareRecord :=
      { documentId := documentId
        ownerId := userId
        ownerEmail := shareData.ownerEmail
        sharedWith := shareTarget shareData
        shareMethod := if shareData.email.isSome then "email" else "aadhaar"
        permissions := shareData.permissions
        sharedAt := now
        status := "active"
        documentName := document.fileName
        documentType := document.documentType }
    let db2 := { db1 with shares := db1.shares ++ [(newShareId, shareRecord)] }
    let db3 := { db2 with
      documents := updateById db2.documents documentId
        (fun r => { r with
          isShared := true
          sharedWith := document.sharedWith ++ [shareTarget shareData]
          updatedAt := now }) }
    (db3, .ok newShareId)

/-- The merged object `{id, shareId, documentId, ...originalData, ...shareData, sharedAt,
uploadedAt}` pushed by `getSharedDocuments`; the share row's fields win where both spreads
supply a key (status, documentType), `documentId` is set explicitly. -/
structure SharedEntry where
  shareId : String
  documentId : String
  fileName : String
  fileUrl : String
  fileSize : Nat
  documentType : String
  description : String
  permissions : String
  sharedAt : Nat
  uploadedAt : Nat
  status : String
  deriving Repr, DecidableEq

/-- Builds the merged entry for one grant row joined to its document row. -/
def mkSharedEntry (shareId : String) (sr : ShareRecord) (docRec : DocRecord) : SharedEntry :=
  { shareId := shareId
    documentId := sr.documentId
    fileName := docRec.fileName
    fileUrl := docRec.fileUrl
    fileSize := docRec.fileSize
    documentType := sr.documentType
    description := docRec.description
    permissions := sr.permissions
    sharedAt := sr.sharedAt
    uploadedAt := docRec.uploadedAt
    status := sr.status }

/-- One of the two Firestore queries of `getSharedDocuments`:
`sharedWith == target`, `status == 'active'`, ordered by `sharedAt` descending. -/
def sharedQuery (db : Db) (target : String) : List (String × ShareRecord) :=
  (db.shares.filter (fun p => p.2.sharedWith == target && p.2.status == "active")).mergeSort
    (fun a b => b.2.sharedAt ≤ a.2.sharedAt)

/-- The per-snapshot loop of `getSharedDocuments`: for each grant, fetch its document and
push the merged entry when the document exists (missing documents are skipped). -/
def collectShared (db : Db) (grants : List (String × ShareRecord)) : List SharedEntry :=
  grants.filterMap (fun p => (getById db.documents p.2.documentId).map (mkSharedEntry p.1 p.2))

/-- The duplicate-removal filter of `getSharedDocuments` (documentService.js:478-480):
`self.findIndex(d => d.documentId === doc.documentId) === index` keeps exactly the first
entry for each `documentId`. -/
def dedupByDocumentId : List SharedEntry → List SharedEntry
  | [] => []
  | e :: rest =>
    e :: dedupByDocumentId (rest.filter (fun x => !(x.documentId == e.documentId)))
termination_by l => l.length
decreasing_by
  simp only [List.length_cons]
  exact Nat.lt_succ_of_le (List.length_filter_le _ _)

/-- `DocumentService.getSharedDocuments(userEmail, userAadhaar)`
(documentService.js:410-488): run both queries, join each grant to its document, then
deduplicate by `documentId` and sort by `sharedAt` descending. -/
def getSharedDocuments (db : Db) (userEmail userAadhaar : String) : List SharedEntry :=
  let emailDocs := collectShared db (sharedQuery db userEmail)
  let aadhaarDocs := collectShared db (sharedQuery db userAadhaar)
  (dedupByDocumentId (emailDocs ++ aadhaarDocs)).mergeSort (fun a b => b.sharedAt ≤ a.sharedAt)

/-- `MAX_FILE_SIZE` from `src/constants.js`: 5 MiB. -/
def MAX_FILE_SIZE : Nat := 5 * 1024 * 1024

/-- `ALLOWED_FILE_TYPES` from `src/constants.js`. -/
def ALLOWED_FILE_TYPES : List String :=
  ["image/jpeg", "image/jpg", "image/png", "application/pdf", "application/msword",
   "application/vnd.openxmlformats-officedocument.wordprocessingml.document"]

/-- The `{isValid, errors}` object returned by the file validators. -/
structure ValidationResult where
  isValid : Bool
  errors : List String
  deriving Repr, DecidableEq

/-- `DocumentService.validateFile(file)` (documentService.js:597-623): checks the MIME
type against `ALLOWED_FILE_TYPES`, the size against `MAX_FILE_SIZE`, and rejects empty
files; `isValid` iff no violation was collected. -/
def validateFile (file : Option FileInput) : ValidationResult :=
  match file with
  | none => { isValid := false, errors := ["No file selected"] }
  | some f =>
    let errors : List String :=
      (if !(ALLOWED_FILE_TYPES.contains f.type) then
        ["Invalid file type. Please select PDF, DOC, DOCX, or image files."] else [])
      ++ (if f.size > MAX_FILE_SIZE then
        ["File size too large. Maximum size is 5MB."] else [])
      ++ (if f.size == 0 then ["File appears to be empty."] else [])
    { isValid := errors.isEmpty, errors := errors }

/-- Outcome of `SharedDocuments.handleDownload`. -/
inductive HandleDownloadResult where
  | viewOnlyRefused
  | downloadFailed
  deriving Repr, DecidableEq

/-- `SharedDocuments.handleDownload(document)` (SharedDocuments component, lines 47-65).
A 'view'-permission entry is refused up front with the toast
'You only have view permission for this document' and nothing else happens.  Otherwise
the handler calls `document.createElement('a')` on its parameter (which shadows the DOM
document and has no such method), so the try-block throws and the catch shows
'Download failed'; no download is ever triggered. -/
def handleDownload (document : SharedEntry) : HandleDownloadResult :=
  if document.permissions == "view" then .viewOnlyRefused
  else .downloadFailed

/-- The `newErrors` object built by the Settings upload component's `validateForm`. -/
structure FormErrors where
  file : Option String
  description : Option String
  deriving Repr, DecidableEq

/-- The Settings-page upload component's own `validateFile` (Settings.jsx:337-368): same
allow-list and 5 MiB bound as `DocumentService.validateFile`, with local constants. -/
def settingsValidateFile (file : Option FileInput) : ValidationResult :=
  let maxSize : Nat := 5 * 1024 * 1024
  let allowedTypes : List String :=
    ["image/jpeg", "image/jpg", "image/png", "application/pdf", "application/msword",
     "application/vnd.openxmlformats-officedocument.wordprocessingml.document"]
  match file with
  | none => { isValid := false, errors := ["No file selected"] }
  | some f =>
    let errors : List String :=
      (if !(allowedTypes.contains f.type) then
        ["Invalid file type. Please select PDF, DOC, DOCX, or image files."] else [])
      ++ (if f.size > maxSize then
        ["File size too large. Maximum size is 5MB."] else [])
      ++ (if f.size == 0 then ["File appears to be empty."] else [])
    { isValid := errors.isEmpty, errors := errors }

/-- JS `String.prototype.trim`: strip leading and trailing whitespace (executable
character-list implementation). -/
def jsTrim (s : String) : String :=
  String.mk (((s.data.dropWhile Char.isWhitespace).reverse.dropWhile Char.isWhitespace).reverse)

/-- `validateForm` of the Settings upload component (Settings.jsx:414-434): the file must
be present and pass `validateFile` (first violation reported); the trimmed description
must be non-empty and at least 10 characters. -/
def validateForm (file : Option FileInput) (description : String) : FormErrors :=
  let fileErr : Option String :=
    match file with
    | none => some "Please select a file to upload"
    | some f =>
      let v := settingsValidateFile (some f)
      if v.isValid then none else some (v.errors.headD "")
  let descErr : Option String :=
    if jsTrim description == "" then some "Please provide a description for the document"
    else if (jsTrim description).length < 10 then
      some "Description must be at least 10 characters long"
    else none
  { file := fileErr, description := descErr }

/-- `validateForm` succeeds when `newErrors` has no keys. -/
def formValid (e : FormErrors) : Bool := e.file.isNone && e.description.isNone

/-- Outcome of the Settings upload component's `uploadToDatabase`. -/
inductive SettingsUploadResult where
  | rejected (errors : FormErrors)
  | storageFailed
  | uploaded (docId : String)
  deriving Repr, DecidableEq

/-- `uploadToDatabase` of the Settings upload component (Settings.jsx:436-530):
`if (!validateForm()) return;` — on a validation failure it returns before touching the
blob store or the database.  Otherwise it uploads the blob (success modelled by
`blobOk`), then inserts the metadata row with the trimmed description, status 'active'
and downloadCount 0. -/
def settingsUploadFlow (db : Db) (userId : String) (file : Option FileInput)
    (documentType description : String) (timestamp : Nat) (blobOk : Bool) (newId : String) :
    Db × SettingsUploadResult :=
  let errs := validateForm file description
  if !(formValid errs) then (db, .rejected errs)
  else
    match file with
    | none => (db, .rejected errs)
    | some f =>
      let fileName := documentType ++ "_" ++ toString timestamp ++ "."
        ++ (f.name.splitOn ".").getLastD ""
      let path := "documents/" ++ userId ++ "/" ++ fileName
      if !blobOk then (db, .storageFailed)
      else
        let db1 := { db with blobPaths := db.blobPaths ++ [path] }
        let row : DocRecord :=
          { userId := userId
            fileName := f.name
            originalFileName := f.name
            storagePath := path
            fileType := f.type
            fileUrl := blobUrlFor path
            documentType := documentType
            description := jsTrim description
            uploadedAt := timestamp
            updatedAt := timestamp
            isShared := false
            sharedWith := []
            fileSize := f.size
            status := "active"
            downloadCount := 0
            lastAccessed := timestamp }
        ({ db1 with documents := db1.documents ++ [(newId, row)] }, .uploaded newId)

/-- `CACHE_DURATION` of the documents hook (useDocuments.jsx:22): two minutes in
milliseconds. -/
def CACHE_DURATION : Nat := 2 * 60 * 1000

/-- The statistics computed by the hook's `fetchDocuments`. -/
structure DocStats where
  totalDocuments : Nat
  sharedDocuments : Nat
  recentUploads : Nat
  storageUsed : Nat
  totalDownloads : Nat
  deriving Repr, DecidableEq

/-- Thirty days in milliseconds (`thirtyDaysAgo`). -/
def THIRTY_DAYS_MS : Nat := 30 * 24 * 60 * 60 * 1000

/-- The statistics block of `fetchDocuments` (useDocuments.jsx:102-108). -/
def computeStats (docs : List (String × DocRecord)) (now : Nat) : DocStats :=
  { totalDocuments := docs.length
    sharedDocuments := (docs.filter (fun p => p.2.isShared)).length
    recentUploads := (docs.filter (fun p => now - THIRTY_DAYS_MS < p.2.uploadedAt)).length
    storageUsed := (docs.map (fun p => p.2.fileSize)).sum
    totalDownloads := (docs.map (fun p => p.2.downloadCount)).sum }

/-- One entry of the hook's module-level `documentsCache`. -/
structure CacheEntry where
  documents : List (String × DocRecord)
  stats : DocStats
  timestamp : Nat
  deriving Repr, DecidableEq

/-- The database query of the hook's `fetchDocuments` (useDocuments.jsx:69-88):
`userId == uid` ordered by `uploadedAt` descending with `limit(50)`, then the in-memory
filter for status 'active'. -/
def hookQueryDocs (db : Db) (uid : String) : List (String × DocRecord) :=
  (((db.documents.filter (fun p => p.2.userId == uid)).mergeSort
      (fun a b => b.2.uploadedAt ≤ a.2.uploadedAt)).take 50).filter
    (fun p => p.2.status == "active")

/-- Result of one `fetchDocuments` call: the documents delivered to the UI, the stats,
whether a database query was issued, and the cache afterwards. -/
structure FetchResult where
  documents : List (String × DocRecord)
  stats : DocStats
  queriedDb : Bool
  cache : List (String × CacheEntry)
  deriving Repr, DecidableEq

/-- `useDocuments.fetchDocuments` (useDocuments.jsx:37-131).  Cache key is
`uid + '_' + JSON.stringify(filters)` (the serialized filters are passed as a string).
A cached entry younger than `CACHE_DURATION` is served without a database query
(useDocuments.jsx:58-63); otherwise the database is queried and the cache repopulated
with the fresh timestamp (useDocuments.jsx:112-117). -/
def fetchDocuments (db : Db) (cache : List (String × CacheEntry)) (uid filtersKey : String)
    (now : Nat) : FetchResult :=
  let cacheKey := uid ++ "_" ++ filtersKey
  let fresh : Unit → FetchResult := fun _ =>
    let docs := hookQueryDocs db uid
    let stats := computeStats docs now
    { documents := docs
      stats := stats
      queriedDb := true
      cache := setById cache cacheKey { documents := docs, stats := stats, timestamp := now } }
  match getById cache cacheKey with
  | some cached =>
    if now - cached.timestamp < CACHE_DURATION then
      { documents := cached.documents, stats := cached.stats, queriedDb := false, cache := cache }
    else fresh ()
  | none => fresh ()

/-- One activity-log entry as built by `Logger.logToFirestore` (logger.js:124-132);
`documentId` is attached only when present. -/
structure LogEntry where
  userId : String
  action : String
  details : String
  documentId : Option String := none
  timestamp : Nat
  deriving Repr, DecidableEq

/-- State touched by the audit logger: the durable `activityLogs` collection, the
localStorage `activityLogs` fallback, and a counter of attempted durable writes. -/
structure LoggerState where
  firestoreLogs : List LogEntry
  localLogs : List LogEntry
  firestoreAttempts : Nat
  deriving Repr, DecidableEq

/-- The `addDoc(collection(db, 'activityLogs'), logData)` call, which may throw
(`sinkOk = false`). -/
def firestoreAddLog (st : LoggerState) (e : LogEntry) (sinkOk : Bool) :
    Except String LoggerState :=
  if sinkOk then .ok { st with firestoreLogs := st.firestoreLogs ++ [e] }
  else .error "firestore write failed"

/-- `Logger.logToLocalStorage(userId, action, details, documentId)` (logger.js:153-176):
push the entry, then `if (logs.length > 100) logs.splice(0, logs.length - 100)` keeps only
the last 100 entries.  Its own try/catch swallows a localStorage failure
(`lsOk = false`), leaving the state unchanged. -/
def logToLocalStorage (st : LoggerState) (e : LogEntry) (lsOk : Bool) : LoggerState :=
  if !lsOk then st
  else
    let logs := st.localLogs ++ [e]
    let logs := if logs.length > 100 then logs.drop (logs.length - 100) else logs
    { st with localLogs := logs }

/-- `Logger.logToFirestore(userId, action, details, documentId)` (logger.js:122-144):
always attempts the durable write first; on failure the catch logs to the console and
falls back to `logToLocalStorage` — the durable sink is not retried and no error escapes,
so the result is always `.ok`. -/
def logToFirestore (st : LoggerState) (e : LogEntry) (sinkOk lsOk : Bool) :
    Except String LoggerState :=
  let st1 := { st with firestoreAttempts := st.firestoreAttempts + 1 }
  match firestoreAddLog st1 e sinkOk with
  | .ok st2 => .ok st2
  | .error _ => .ok (logToLocalStorage st1 e lsOk)

/-- `maskAadhaar(aadhaar)` (utils/helpers.js:39-44): a string of length 12 is rendered as
`XXXX XXXX ` followed by `aadhaar.slice(-4)` (its last four characters); any other length
is returned unchanged. -/
def maskAadhaar (aadhaar : String) : String :=
  if aadhaar.length == 12 then
    "XXXX XXXX " ++ String.mk (aadhaar.data.drop (aadhaar.data.length - 4))
  else aadhaar

/-- Modelled from the spec: the Verhoeff multiplication table `d[10][10]`
(`src/utils/validation.js` is imported by RegisterForm, Header, DocumentShare and others
but is not present under src/, so the identity-number validator is reproduced from the
spec's §4.1, which prescribes the standard published Verhoeff tables). -/
def verhoeffD : List (List Nat) :=
  [[0, 1, 2, 3, 4, 5, 6, 7, 8, 9],
   [1, 2, 3, 4, 0, 6, 7, 8, 9, 5],
   [2, 3, 4, 0, 1, 7, 8, 9, 5, 6],
   [3, 4, 0, 1, 2, 8, 9, 5, 6, 7],
   [4, 0, 1, 2, 3, 9, 5, 6, 7, 8],
   [5, 9, 8, 7, 6, 0, 4, 3, 2, 1],
   [6, 5, 9, 8, 7, 1, 0, 4, 3, 2],
   [7, 6, 5, 9, 8, 2, 1, 0, 4, 3],
   [8, 7, 6, 5, 9, 3, 2, 1, 0, 4],
   [9, 8, 7, 6, 5, 4, 3, 2, 1, 0]]

/-- Modelled from the spec: the Verhoeff permutation table `p[8][10]` (standard published
table, cyclically indexed by digit position mod 8). -/
def verhoeffP : List (List Nat) :=
  [[0, 1, 2, 3, 4, 5, 6, 7, 8, 9],
   [1, 5, 7, 6, 2, 8, 3, 0, 9, 4],
   [5, 8, 0, 3, 7, 9, 6, 1, 4, 2],
   [8, 9, 1, 6, 0, 4, 3, 5, 2, 7],
   [9, 4, 5, 3, 1, 2, 6, 8, 7, 0],
   [4, 2, 8, 6, 5, 7, 3, 9, 0, 1],
   [2, 7, 9, 3, 8, 0, 6, 4, 1, 5],
   [7, 0, 4, 6, 9, 1, 3, 2, 5, 8]]

/-- `d[c][v]`. -/
def dTab (c v : Nat) : Nat := (verhoeffD.getD c []).getD v 0

/-- `p[k][v]`. -/
def pTab (k v : Nat) : Nat := (verhoeffP.getD k []).getD v 0

/-- Modelled from the spec: the checksum loop — digits processed in reverse order,
`c = d[c][p[i mod 8][digit]]` with `i` the 0-based position from the end, starting from
`c = 0`.  `verhoeffGo i c l` consumes the already-reversed digit list `l` starting at
position `i`. -/
def verhoeffGo (i c : Nat) : List Nat → Nat
  | [] => c
  | v :: rest => verhoeffGo (i + 1) (dTab c (pTab (i % 8) v)) rest

/-- Modelled from the spec: the final checksum of a digit string given in display
order. -/
def verhoeffChecksum (digits : List Nat) : Nat := verhoeffGo 0 0 digits.reverse

/-- The numeric value of a digit character (`charCodeAt - 48`). -/
def charDigit (ch : Char) : Nat := ch.toNat - 48

/-- Modelled from the spec: `validateAadhaar(value)` / `validateIdentityNumber(value)`
from the missing `src/utils/validation.js` — accepts exactly the 12-character all-digit
strings whose Verhoeff checksum is 0. -/
def validateAadhaar (value : String) : Bool :=
  value.length == 12 && value.data.all Char.isDigit
    && verhoeffChecksum (value.data.map charDigit) == 0

/-! ## Concrete states used by the scenario theorems -/

/-- A stored document owned by alice and shared with b@example.com. -/
def aliceDoc : DocRecord :=
  { userId := "alice"
    fileName := "passport.pdf"
    originalFileName := "passport.pdf"
    storagePath := "documents/alice/passport.pdf"
    fileType := "application/pdf"
    fileUrl := "blob://documents/alice/passport.pdf"
    documentType := "passport"
    description := "Alice passport scan"
    uploadedAt := 1
    updatedAt := 1
    isShared := true
    sharedWith := ["b@example.com"]
    fileSize := 1000
    status := "active"
    downloadCount := 0
    lastAccessed := 0 }

/-- A view-only grant of alice's document to b@example.com. -/
def viewGrant : ShareRecord :=
  { documentId := "d1"
    ownerId := "alice"
    ownerEmail := "alice@example.com"
    sharedWith := "b@example.com"
    shareMethod := "email"
    permissions := "view"
    sharedAt := 5
    status := "active"
    documentName := "passport.pdf"
    documentType := "passport" }

/-- State with alice's document shared view-only with b@example.com. -/
def sharedViewDb : Db :=
  { documents := [("d1", aliceDoc)], shares := [("s1", viewGrant)], blobPaths := [] }

/-- The merged shared-documents entry b@example.com sees for the view-only grant. -/
def viewEntry : SharedEntry := mkSharedEntry "s1" viewGrant aliceDoc

/-- A document owned by alice with no shares, for the soft-delete scenario. -/
def soloDoc : DocRecord := { aliceDoc with isShared := false, sharedWith := [] }

/-- State holding only alice's unshared document. -/
def soloDb : Db := { documents := [("d1", soloDoc)], shares := [], blobPaths := [] }

/-- The state after alice soft-deletes her document. -/
def soloDbDeleted : Db := (deleteDocument soloDb "alice" "d1" "documents/alice/passport.pdf" 10 true).1

/-- A six-mebibyte PDF, larger than the 5 MiB bound of the file check. -/
def sixMiBFile : FileInput :=
  { name := "big.pdf", type := "application/pdf", size := 6 * 1024 * 1024 }

/-- An empty starting state. -/
def emptyDb : Db := { documents := [], shares := [], blobPaths := [] }

/-- The grantee-edit patch used in the update scenario. -/
def granteePatch : DocPatch := { description := some "edited by the grantee" }

/-- A download-permission grant of alice's document to b@example.com. -/
def downloadGrant : ShareRecord := { viewGrant with permissions := "download" }

/-- State for the sharing scenario: alice's document, shared once with b@example.com at
permission download. -/
def sharedDownloadDb : Db :=
  { documents := [("d1", aliceDoc)], shares := [("s1", downloadGrant)], blobPaths := [] }

/-- Two audit entries already sitting in the local fallback log. -/
def logA : LogEntry := { userId := "alice", action := "UPLOAD_DOCUMENT", details := "a", timestamp := 1 }

/-- A second pre-existing audit entry. -/
def logB : LogEntry := { userId := "alice", action := "VIEW_DOCUMENT", details := "b", timestamp := 2 }

/-- The entry being recorded in the audit scenario. -/
def logC : LogEntry := { userId := "alice", action := "DOWNLOAD_DOCUMENT", details := "c", timestamp := 3 }

/-- Logger state before the audit scenario: empty durable log, two local entries. -/
def loggerSt : LoggerState := { firestoreLogs := [], localLogs := [logA, logB], firestoreAttempts := 0 }

/-- Statistics of an empty document list. -/
def zeroStats : DocStats :=
  { totalDocuments := 0, sharedDocuments := 0, recentUploads := 0, storageUsed := 0
    totalDownloads := 0 }

/-- A cache holding one entry written at time 0 for alice's default filter key. -/
def staleCache : List (String × CacheEntry) :=
  [("alice_default", { documents := [], stats := zeroStats, timestamp := 0 })]

/-! ## Association-list lemmas -/

theorem getById_cons (k : String) (p : String × α) (t : List (String × α)) :
    getById (p :: t) k = if p.1 == k then some p.2 else getById t k := by
  cases h : p.1 == k <;> simp [getById, List.find?, h]

theorem getById_updateById (coll : List (String × α)) (k : String) (f : α → α) :
    getById (updateById coll k f) k = (getById coll k).map f := by
  unfold getById updateById
  rw [List.find?_map]
  have hcomp : ((fun p : String × α => p.1 == k) ∘
      fun p : String × α => if p.1 == k then (p.1, f p.2) else p) =
      fun p : String × α => p.1 == k := by
    funext q
    by_cases h : q.1 == k <;> simp_all
  rw [hcomp]
  cases hf : coll.find? (fun p => p.1 == k) with
  | none => simp
  | some q =>
    have hq := List.find?_some (p := fun r : String × α => r.1 == k) hf
    have heq : q.1 = k := by simpa using hq
    simp [heq]

theorem getById_setById (coll : List (String × α)) (k : String) (v : α) :
    getById (setById coll k v) k = some v := by
  unfold setById
  cases hs : (coll.find? (fun p => p.1 == k)).isSome with
  | true =>
    simp only [hs, if_true]
    unfold getById
    rw [List.find?_map]
    have hcomp : ((fun p : String × α => p.1 == k) ∘
        fun p : String × α => if p.1 == k then (k, v) else p) =
        fun p : String × α => p.1 == k := by
      funext q
      by_cases h : q.1 == k <;> simp_all
    rw [hcomp]
    cases hf : coll.find? (fun p => p.1 == k) with
    | none => rw [hf] at hs; simp at hs
    | some q =>
      have hq := List.find?_some (p := fun r : String × α => r.1 == k) hf
      have heq : q.1 = k := by simpa using hq
      simp [heq]
  | false =>
    simp only [hs, Bool.false_eq_true, if_false]
    unfold getById
    rw [List.find?_append]
    have hnone : coll.find? (fun p => p.1 == k) = none := by
      cases hcf : coll.find? (fun p => p.1 == k)
      · rfl
      · rw [hcf] at hs; simp at hs
    rw [hnone]
    simp [List.find?]

theorem mem_updateById_self {coll : List (String × α)} {k : String} {f : α → α}
    {p : String × α} (hp : p ∈ updateById coll k f) (hk : p.1 = k) :
    ∃ q ∈ coll, q.1 = k ∧ p = (k, f q.2) := by
  rcases List.mem_map.mp hp with ⟨q, hq, hqe⟩
  by_cases h : q.1 = k
  · have hbeq : (q.1 == k) = true := by simpa using h
    simp only [hbeq, if_true] at hqe
    exact ⟨q, hq, h, by rw [← hqe, h]⟩
  · have hbeq : (q.1 == k) = false := by simpa using h
    simp only [hbeq, Bool.false_eq_true, if_false] at hqe
    rw [← hqe] at hk
    exact absurd hk h

theorem getDocument_ok_of {db : Db} {docId userId : String} {now : Nat} {rec : DocRecord}
    (hrec : getById db.documents docId = some rec)
    (hacc : rec.userId = userId ∨ rec.sharedWith.contains userId = true) :
    ∃ r db2, getDocument db docId userId now = .ok (r, db2) := by
  have hcond : (!(rec.userId == userId) && !(rec.sharedWith.contains userId)) = false := by
    rcases hacc with h | h
    · simp [h]
    · simp [h]
      intro hne
      simpa using h
  simp only [getDocument, hrec, hcond, Bool.false_eq_true, if_false]
  exact ⟨_, _, rfl⟩

/-! ## Claim C10 — maskAadhaar -/

/-- C10: for every string of length exactly 12, `maskAadhaar` returns `"XXXX XXXX "`
followed by the input's last four characters; for every other length it returns the input
unchanged. -/
theorem maskAadhaar_spec (s : String) :
    (s.length = 12 →
      maskAadhaar s = "XXXX XXXX " ++ String.mk (s.data.drop (s.data.length - 4)))
    ∧ (s.length ≠ 12 → maskAadhaar s = s) := by
  constructor
  · intro h
    simp [maskAadhaar, h]
  · intro h
    simp [maskAadhaar, h]

/-- C10 witness: a 12-character identity number is masked down to its last four
characters, and an 11-character string is displayed unmasked. -/
theorem maskAadhaar_spec_witness :
    maskAadhaar "123456789012" = "XXXX XXXX 9012" ∧ maskAadhaar "12345678901" = "12345678901" := by
  constructor
  · have h := (maskAadhaar_spec "123456789012").1 (by decide)
    simpa using h
  · exact (maskAadhaar_spec "12345678901").2 (by decide)

/-! ## Claim C6 — validateFile -/

/-- C6: `validateFile` accepts exactly the files whose MIME type is in the allow-list and
whose size is positive and at most `MAX_FILE_SIZE` (5 MiB); each failed check contributes
its own human-readable violation string, and a rejected file always carries at least one
violation. -/
theorem validateFile_spec (f : FileInput) :
    ((validateFile (some f)).isValid = true ↔
      (f.type ∈ ALLOWED_FILE_TYPES ∧ 0 < f.size ∧ f.size ≤ MAX_FILE_SIZE))
    ∧ (f.type ∉ ALLOWED_FILE_TYPES →
        "Invalid file type. Please select PDF, DOC, DOCX, or image files."
          ∈ (validateFile (some f)).errors)
    ∧ (MAX_FILE_SIZE < f.size →
        "File size too large. Maximum size is 5MB." ∈ (validateFile (some f)).errors)
    ∧ (f.size = 0 → "File appears to be empty." ∈ (validateFile (some f)).errors)
    ∧ ((validateFile (some f)).isValid = false → (validateFile (some f)).errors ≠ []) := by
  by_cases ht : f.type ∈ ALLOWED_FILE_TYPES <;>
    by_cases h0 : f.size = 0 <;>
    by_cases hm : f.size ≤ MAX_FILE_SIZE <;>
    simp [validateFile, ht, h0, hm, Nat.lt_iff_add_one_le] <;>
    omega

/-- C6 witness: a 6 MiB PDF is rejected with the size violation, and a 1-byte PNG is
accepted. -/
theorem validateFile_spec_witness :
    "File size too large. Maximum size is 5MB." ∈ (validateFile (some sixMiBFile)).errors
    ∧ (validateFile (some { name := "a.png", type := "image/png", size := 1 })).isValid = true := by
  constructor
  · exact (validateFile_spec sixMiBFile).2.2.1 (by decide)
  · exact ((validateFile_spec { name := "a.png", type := "image/png", size := 1 }).1).mpr (by decide)

/-! ## Claim C8 — audit logger fallback -/

theorem logToLocalStorage_ok (st : LoggerState) (e : LogEntry) :
    logToLocalStorage st e true =
      { st with localLogs := (st.localLogs ++ [e]).drop (st.localLogs.length + 1 - 100) } := by
  unfold logToLocalStorage
  have hlen : (st.localLogs ++ [e]).length = st.localLogs.length + 1 := by simp
  by_cases h : (st.localLogs ++ [e]).length > 100
  · rw [hlen] at h
    simp only [Bool.not_true, Bool.false_eq_true, if_false, hlen, h, if_true]
  · rw [hlen] at h
    have h0 : st.localLogs.length + 1 - 100 = 0 := by omega
    simp only [Bool.not_true, Bool.false_eq_true, if_false, hlen, h, if_false, h0,
      List.drop_zero]

theorem dropWindow_getLast (l : List LogEntry) (e : LogEntry) (k : Nat) (hk : k ≤ l.length) :
    ((l ++ [e]).drop k).getLast? = some e := by
  rw [List.drop_append_of_le_length hk]
  exact List.getLast?_concat _

/-- C8: every `logToFirestore` call makes exactly one attempt on the durable sink and
never surfaces an error; on sink success the entry lands in the durable log; on sink
failure the durable log is untouched (no retry) and, when localStorage works, the entry
goes to the local fallback, which keeps only the 100 most recent entries (oldest
evicted) with the new entry last. -/
theorem logToFirestore_spec (st : LoggerState) (e : LogEntry) (sinkOk lsOk : Bool) :
    ∃ st2, logToFirestore st e sinkOk lsOk = .ok st2
      ∧ st2.firestoreAttempts = st.firestoreAttempts + 1
      ∧ (sinkOk = true → st2.firestoreLogs = st.firestoreLogs ++ [e]
          ∧ st2.localLogs = st.localLogs)
      ∧ (sinkOk = false → st2.firestoreLogs = st.firestoreLogs)
      ∧ (sinkOk = false → lsOk = true →
          st2.localLogs = (st.localLogs ++ [e]).drop (st.localLogs.length + 1 - 100)
          ∧ st2.localLogs.length = min (st.localLogs.length + 1) 100
          ∧ st2.localLogs.getLast? = some e) := by
  cases sinkOk with
  | true =>
    refine ⟨{ st with
        firestoreAttempts := st.firestoreAttempts + 1
        firestoreLogs := st.firestoreLogs ++ [e] }, ?_, rfl, ?_, ?_, ?_⟩
    · simp [logToFirestore, firestoreAddLog]
    · intro h
      exact ⟨rfl, rfl⟩
    · intro h
      simp at h
    · intro h
      simp at h
  | false =>
    cases lsOk with
    | true =>
      refine ⟨{ st with
          firestoreAttempts := st.firestoreAttempts + 1
          localLogs := (st.localLogs ++ [e]).drop (st.localLogs.length + 1 - 100) },
        ?_, rfl, ?_, ?_, ?_⟩
      · simp [logToFirestore, firestoreAddLog, logToLocalStorage_ok]
      · intro h
        simp at h
      · intro h
        exact rfl
      · intro h hl
        refine ⟨rfl, ?_, ?_⟩
        · simp only [List.length_drop, List.length_append, List.length_cons,
            List.length_nil]
          omega
        · exact dropWindow_getLast _ _ _ (by omega)
    | false =>
      refine ⟨{ st with firestoreAttempts := st.firestoreAttempts + 1 },
        ?_, rfl, ?_, ?_, ?_⟩
      · simp [logToFirestore, firestoreAddLog, logToLocalStorage]
      · intro h
        simp at h
      · intro h
        exact rfl
      · intro h hl
        simp at hl

/-- C8 witness: with a failing durable sink, recording a third entry after two existing
local entries keeps the durable log empty, makes exactly one durable attempt, and leaves
the local log `[logA, logB, logC]` with the new entry last. -/
theorem logToFirestore_spec_witness :
    ∃ st2, logToFirestore loggerSt logC false true = .ok st2
      ∧ st2.firestoreAttempts = 1
      ∧ st2.firestoreLogs = []
      ∧ st2.localLogs = [logA, logB, logC] := by
  obtain ⟨st2, hok, hatt, _, hfs, hls⟩ := logToFirestore_spec loggerSt logC false true
  obtain ⟨hdrop, -, -⟩ := hls rfl rfl
  refine ⟨st2, hok, by simpa [loggerSt] using hatt, by simpa [loggerSt] using hfs rfl, ?_⟩
  simpa [loggerSt] using hdrop

/-! ## Claim C7 — read-through cache -/

theorem fetchDocuments_eq_fresh_none (db : Db) (cache : List (String × CacheEntry))
    (uid fk : String) (t : Nat) (h : getById cache (uid ++ "_" ++ fk) = none) :
    fetchDocuments db cache uid fk t =
      { documents := hookQueryDocs db uid
        stats := computeStats (hookQueryDocs db uid) t
        queriedDb := true
        cache := setById cache (uid ++ "_" ++ fk)
          { documents := hookQueryDocs db uid
            stats := computeStats (hookQueryDocs db uid) t
            timestamp := t } } := by
  simp [fetchDocuments, h]

theorem fetchDocuments_eq_fresh_stale (db : Db) (cache : List (String × CacheEntry))
    (uid fk : String) (t : Nat) (e : CacheEntry)
    (h : getById cache (uid ++ "_" ++ fk) = some e)
    (hs : ¬ (t - e.timestamp < CACHE_DURATION)) :
    fetchDocuments db cache uid fk t =
      { documents := hookQueryDocs db uid
        stats := computeStats (hookQueryDocs db uid) t
        queriedDb := true
        cache := setById cache (uid ++ "_" ++ fk)
          { documents := hookQueryDocs db uid
            stats := computeStats (hookQueryDocs db uid) t
            timestamp := t } } := by
  simp [fetchDocuments, h, hs]

theorem fetchDocuments_hit (db : Db) (cache : List (String × CacheEntry))
    (uid fk : String) (t : Nat) (e : CacheEntry)
    (h : getById cache (uid ++ "_" ++ fk) = some e)
    (hs : t - e.timestamp < CACHE_DURATION) :
    fetchDocuments db cache uid fk t =
      { documents := e.documents, stats := e.stats, queriedDb := false, cache := cache } := by
  simp [fetchDocuments, h, hs]

/-- C7: when a `fetchDocuments` call has queried the database (populating the cache), a
second call with the same owner and filters within `CACHE_DURATION` returns the same
documents and stats without issuing a database query and leaves the cache untouched; a
cache entry whose age is at least `CACHE_DURATION` is treated as a miss and triggers a
database query. -/
theorem fetchDocuments_cache_spec (db : Db) (cache : List (String × CacheEntry))
    (uid filtersKey : String) (t1 t2 : Nat) :
    ((fetchDocuments db cache uid filtersKey t1).queriedDb = true →
      t2 - t1 < CACHE_DURATION →
      (fetchDocuments db (fetchDocuments db cache uid filtersKey t1).cache uid filtersKey t2).documents
          = (fetchDocuments db cache uid filtersKey t1).documents
        ∧ (fetchDocuments db (fetchDocuments db cache uid filtersKey t1).cache uid filtersKey t2).stats
          = (fetchDocuments db cache uid filtersKey t1).stats
        ∧ (fetchDocuments db (fetchDocuments db cache uid filtersKey t1).cache uid filtersKey t2).queriedDb
          = false
        ∧ (fetchDocuments db (fetchDocuments db cache uid filtersKey t1).cache uid filtersKey t2).cache
          = (fetchDocuments db cache uid filtersKey t1).cache)
    ∧ (∀ e, getById cache (uid ++ "_" ++ filtersKey) = some e →
        CACHE_DURATION ≤ t1 - e.timestamp →
        (fetchDocuments db cache uid filtersKey t1).queriedDb = true) := by
  constructor
  · intro hq hlt
    have hfresh : fetchDocuments db cache uid filtersKey t1 =
        { documents := hookQueryDocs db uid
          stats := computeStats (hookQueryDocs db uid) t1
          queriedDb := true
          cache := setById cache (uid ++ "_" ++ filtersKey)
            { documents := hookQueryDocs db uid
              stats := computeStats (hookQueryDocs db uid) t1
              timestamp := t1 } } := by
      cases h : getById cache (uid ++ "_" ++ filtersKey) with
      | none => exact fetchDocuments_eq_fresh_none db cache uid filtersKey t1 h
      | some e =>
        by_cases hs : t1 - e.timestamp < CACHE_DURATION
        · rw [fetchDocuments_hit db cache uid filtersKey t1 e h hs] at hq
          simp at hq
        · exact fetchDocuments_eq_fresh_stale db cache uid filtersKey t1 e h hs
    rw [hfresh]
    have hget : getById
        (setById cache (uid ++ "_" ++ filtersKey)
          { documents := hookQueryDocs db uid
            stats := computeStats (hookQueryDocs db uid) t1
            timestamp := t1 })
        (uid ++ "_" ++ filtersKey) =
        some { documents := hookQueryDocs db uid
               stats := computeStats (hookQueryDocs db uid) t1
               timestamp := t1 } := getById_setById _ _ _
    rw [fetchDocuments_hit db _ uid filtersKey t2 _ hget hlt]
    exact ⟨rfl, rfl, rfl, rfl⟩
  · intro e he hstale
    have hs : ¬ (t1 - e.timestamp < CACHE_DURATION) := by omega
    rw [fetchDocuments_eq_fresh_stale db cache uid filtersKey t1 e he hs]

/-- C7 witness: with an empty cache, a call at t=1000 queries the database and a second
call at t=1500 is served from the cache with identical documents and no query; a cache
entry aged 200000 ms (beyond the 120000 ms TTL) triggers a fresh query. -/
theorem fetchDocuments_cache_spec_witness :
    ((fetchDocuments soloDb (fetchDocuments soloDb [] "alice" "default" 1000).cache
        "alice" "default" 1500).documents
      = (fetchDocuments soloDb [] "alice" "default" 1000).documents
    ∧ (fetchDocuments soloDb (fetchDocuments soloDb [] "alice" "default" 1000).cache
        "alice" "default" 1500).queriedDb = false)
    ∧ (fetchDocuments soloDb staleCache "alice" "default" 200000).queriedDb = true := by
  constructor
  · obtain ⟨hdocs, hstats, hq2, hcache⟩ :=
      (fetchDocuments_cache_spec soloDb [] "alice" "default" 1000 1500).1 (by decide) (by decide)
    exact ⟨hdocs, hq2⟩
  · exact (fetchDocuments_cache_spec soloDb staleCache "alice" "default" 200000 0).2
      { documents := [], stats := zeroStats, timestamp := 0 } (by decide) (by decide)

/-! ## Claim C2 — soft delete versus get/list -/

theorem getUserDocuments_subset (db : Db) (uid : String) (fs : DocFilters) :
    getUserDocuments db uid fs ⊆
      db.documents.filter (fun p => p.2.userId == uid && p.2.status == "active") := by
  intro x hx
  simp only [getUserDocuments] at hx
  rcases hdl : fs.docLimit with _ | n <;> rw [hdl] at hx
  · have hx1 := (List.mem_mergeSort).mp hx
    rcases hdt : fs.documentType with _ | t <;> rw [hdt] at hx1
    · exact hx1
    · by_cases hall : (t == "all") = true
      · simpa [hall] using hx1
      · simp only [hall, Bool.not_false, if_true] at hx1
        exact (List.mem_filter.mp hx1).1
  · have hx0 := List.take_subset _ _ hx
    have hx1 := (List.mem_mergeSort).mp hx0
    rcases hdt : fs.documentType with _ | t <;> rw [hdt] at hx1
    · exact hx1
    · by_cases hall : (t == "all") = true
      · simpa [hall] using hx1
      · simp only [hall, Bool.not_false, if_true] at hx1
        exact (List.mem_filter.mp hx1).1

/-- C2 (amended): once `softDelete` has completed on an existing document, every `list`
call — for any caller and any filters — omits that document, because both the service
query and the hook filter require status 'active'; but `getDocument` applies no status
check, so `get` still succeeds for the owner on the soft-deleted row, and `get` reports
NotFound exactly when no row (of any status) carries the requested id. -/
theorem softDelete_read_spec (db : Db) (owner docId sp : String) (now now2 : Nat)
    (blobDeleteOk : Bool) (rec : DocRecord)
    (hrec : getById db.documents docId = some rec)
    (hown : rec.userId = owner) :
    (deleteDocument db owner docId sp now blobDeleteOk).2 = .ok ()
    ∧ (∀ uid fs, docId ∉
        (getUserDocuments (deleteDocument db owner docId sp now blobDeleteOk).1 uid fs).map
          Prod.fst)
    ∧ (∃ r db3,
        getDocument (deleteDocument db owner docId sp now blobDeleteOk).1 docId owner now2
          = .ok (r, db3))
    ∧ (∀ id u n, getDocument db id u n = .error .documentNotFound ↔
        getById db.documents id = none) := by
  have hget1 : getDocument db docId owner now =
      .ok ({ rec with lastAccessed := now },
        { db with
          documents := updateById db.documents docId
            (fun r => { r with lastAccessed := now }) }) := by
    simp [getDocument, hrec, hown]
  have hdocs : (deleteDocument db owner docId sp now blobDeleteOk).1.documents =
      updateById (updateById db.documents docId (fun r => { r with lastAccessed := now }))
        docId
        (fun r => { r with status := "deleted", deletedAt := some now, updatedAt := now }) := by
    simp only [deleteDocument, hget1]
    cases blobDeleteOk <;> simp
  refine ⟨by simp [deleteDocument, hget1], ?_, ?_, ?_⟩
  · intro uid fs hmem
    rcases List.mem_map.mp hmem with ⟨p, hp, hpid⟩
    have hsub := getUserDocuments_subset _ uid fs hp
    rw [hdocs] at hsub
    have hfilter := List.mem_filter.mp hsub
    rcases mem_updateById_self hfilter.1 hpid with ⟨q, hq, hq1, hq2⟩
    have hstatus : p.2.status = "deleted" := by rw [hq2]
    have : (p.2.status == "active") = true := by
      have := hfilter.2
      simp only [Bool.and_eq_true] at this
      exact this.2
    rw [hstatus] at this
    simp at this
  · have hget3 : getById (deleteDocument db owner docId sp now blobDeleteOk).1.documents docId
        = some { rec with
            lastAccessed := now
            status := "deleted"
            deletedAt := some now
            updatedAt := now } := by
      rw [hdocs, getById_updateById, getById_updateById, hrec]
      rfl
    exact getDocument_ok_of hget3 (Or.inl hown)
  · intro id u n
    cases h : getById db.documents id with
    | none => simp [getDocument, h]
    | some data =>
      simp only [getDocument, h]
      constructor
      · intro heq
        split at heq <;> simp_all
      · intro heq
        simp at heq

/-- C2 counterexample: after alice soft-deletes her document, `getDocument` still
succeeds for her (the claim says every subsequent `get` fails with NotFound). -/
theorem softDelete_get_counterexample :
    (deleteDocument soloDb "alice" "d1" "documents/alice/passport.pdf" 10 true).2 = .ok ()
    ∧ (getDocument soloDbDeleted "d1" "alice" 20).isOk = true := by
  constructor
  · rfl
  · rfl

/-- C2 witness: the soft delete of alice's document succeeds, the deleted document no
longer appears in her list, and her `get` still returns it. -/
theorem softDelete_read_spec_witness :
    (deleteDocument soloDb "alice" "d1" "documents/alice/passport.pdf" 10 true).2 = .ok ()
    ∧ "d1" ∉ (getUserDocuments soloDbDeleted "alice" {}).map Prod.fst
    ∧ (getDocument soloDbDeleted "d1" "alice" 20).isOk = true := by
  obtain ⟨hA, hB, hC, hD⟩ :=
    softDelete_read_spec soloDb "alice" "d1" "documents/alice/passport.pdf" 10 20 true soloDoc
      (by decide) rfl
  refine ⟨hA, hB "alice" {}, ?_⟩
  obtain ⟨r, d3, hh⟩ := hC
  simp only [soloDbDeleted]
  rw [hh]
  rfl

/-! ## Claim C1 — view-only grants and download -/

/-- C1 (amended): for a caller listed in a document's `sharedWith`, `get` succeeds; the
view-permission refusal lives only in the SharedDocuments UI handler, which rejects a
'view' entry with the permission toast and triggers no download; the service-level
`downloadDocument` applies no permission-level check — it increments `downloadCount` for
the view-only grantee and fails with the generic download error, and it can never produce
the PermissionDenied-class error on any input. -/
theorem viewGrant_download_spec (db : Db) (docId caller : String) (rec : DocRecord)
    (entry : SharedEntry) (now : Nat)
    (hrec : getById db.documents docId = some rec)
    (hshared : rec.sharedWith.contains caller = true)
    (hview : entry.permissions = "view") :
    (∃ r db1, getDocument db docId caller now = .ok (r, db1))
    ∧ handleDownload entry = .viewOnlyRefused
    ∧ (downloadDocument db docId caller now).2 = .error .downloadFailed
    ∧ getById (downloadDocument db docId caller now).1.documents docId
        = some { rec with downloadCount := rec.downloadCount + 1, lastAccessed := now }
    ∧ (∀ db0 id u n, (downloadDocument db0 id u n).2 ≠ .error .accessDenied) := by
  have hcond : (!(rec.userId == caller) && !(rec.sharedWith.contains caller)) = false := by
    simp [hshared]
    intro hne
    simpa using hshared
  have hget1 : getDocument db docId caller now =
      .ok ({ rec with lastAccessed := now },
        { db with
          documents := updateById db.documents docId
            (fun r => { r with lastAccessed := now }) }) := by
    simp only [getDocument, hrec, hcond, Bool.false_eq_true, if_false]
  refine ⟨getDocument_ok_of hrec (Or.inr hshared), by simp [handleDownload, hview], ?_, ?_, ?_⟩
  · simp [downloadDocument, hget1]
  · simp only [downloadDocument, hget1]
    rw [getById_updateById, getById_updateById, hrec]
    rfl
  · intro db0 id u n
    cases h : getDocument db0 id u n with
    | error e => simp [downloadDocument, h]
    | ok v => simp [downloadDocument, h]

/-- C1 counterexample: b@example.com holds only a view grant on alice's document, yet
`downloadDocument` does not fail with the PermissionDenied-class error — it fails with
the generic download error and has already incremented `downloadCount` (the view-only
grant was treated as downloadable at the service layer). -/
theorem viewGrant_download_counterexample :
    (downloadDocument sharedViewDb "d1" "b@example.com" 7).2 ≠ .error .accessDenied
    ∧ (downloadDocument sharedViewDb "d1" "b@example.com" 7).2 = .error .downloadFailed
    ∧ (getById (downloadDocument sharedViewDb "d1" "b@example.com" 7).1.documents "d1").map
        (fun r => r.downloadCount) = some 1 := by
  have h2 : (downloadDocument sharedViewDb "d1" "b@example.com" 7).2 = .error .downloadFailed :=
    rfl
  refine ⟨by rw [h2]; simp, h2, by decide⟩

/-- C1 witness: in the concrete view-grant state, get succeeds for the grantee, the UI
handler refuses the download, and the service download ends in the generic failure. -/
theorem viewGrant_download_spec_witness :
    (getDocument sharedViewDb "d1" "b@example.com" 7).isOk = true
    ∧ handleDownload viewEntry = .viewOnlyRefused
    ∧ (downloadDocument sharedViewDb "d1" "b@example.com" 7).2 = .error .downloadFailed := by
  obtain ⟨hget, hui, hdl, hinc, hnever⟩ :=
    viewGrant_download_spec sharedViewDb "d1" "b@example.com" aliceDoc viewEntry 7
      (by decide) (by decide) (by decide)
  refine ⟨?_, hui, hdl⟩
  obtain ⟨r, db1, hh⟩ := hget
  rw [hh]
  rfl

/-! ## Claim C5 — update access control and frame -/

/-- C5 (amended): `updateDocument` succeeds whenever the caller passes `getDocument`'s
access check — the owner or anyone in `sharedWith`, not only the owner; for a patch that
supplies only category/description values, the stored row afterwards differs from the
original exactly in `documentType`, `description`, `updatedAt`, and `lastAccessed` (the
last bumped by the embedded `getDocument` call); all remaining fields — status, userId,
sharedWith, downloadCount, sizes, names — are unchanged. -/
theorem update_access_frame_spec (db : Db) (caller docId : String) (p : DocPatch) (now : Nat)
    (rec : DocRecord)
    (hrec : getById db.documents docId = some rec)
    (hacc : rec.userId = caller ∨ rec.sharedWith.contains caller = true)
    (hst : p.status = none) (hdc : p.downloadCount = none) :
    ∃ db2, updateDocument db caller docId p now = (db2, .ok ())
      ∧ getById db2.documents docId = some { rec with
          documentType := p.documentType.getD rec.documentType
          description := p.description.getD rec.description
          updatedAt := now
          lastAccessed := now } := by
  have hcond : (!(rec.userId == caller) && !(rec.sharedWith.contains caller)) = false := by
    rcases hacc with h | h
    · simp [h]
    · simp [h]
      intro hne
      simpa using h
  have hget1 : getDocument db docId caller now =
      .ok ({ rec with lastAccessed := now },
        { db with
          documents := updateById db.documents docId
            (fun r => { r with lastAccessed := now }) }) := by
    simp only [getDocument, hrec, hcond, Bool.false_eq_true, if_false]
  have hupd : updateDocument db caller docId p now =
      ({ db with
          documents := updateById
            (updateById db.documents docId (fun r => { r with lastAccessed := now }))
            docId (fun r => applyPatch r p now) }, .ok ()) := by
    simp only [updateDocument, hget1]
  refine ⟨_, hupd, ?_⟩
  rw [getById_updateById, getById_updateById, hrec]
  simp [applyPatch, hst, hdc]

/-- C5 counterexample: b@example.com is not the owner of alice's document but holds only
a shared entry, yet `updateDocument` succeeds for them; moreover the update also changed
`lastAccessed` (0 to 5), beyond category/description/updatedAt. -/
theorem update_nonowner_counterexample :
    (updateDocument sharedViewDb "b@example.com" "d1" granteePatch 5).2 = .ok ()
    ∧ "b@example.com" ≠ "alice"
    ∧ (getById sharedViewDb.documents "d1").map (fun r => r.userId) = some "alice"
    ∧ (getById (updateDocument sharedViewDb "b@example.com" "d1" granteePatch 5).1.documents
        "d1").map (fun r => r.lastAccessed) = some 5
    ∧ (getById sharedViewDb.documents "d1").map (fun r => r.lastAccessed) = some 0 := by
  exact ⟨rfl, by decide, by decide, by decide, by decide⟩

/-- C5 witness: the owner's description-only update succeeds and changes exactly
description, updatedAt and lastAccessed, leaving status and downloadCount intact. -/
theorem update_access_frame_spec_witness :
    (updateDocument sharedViewDb "alice" "d1" granteePatch 5).2 = .ok ()
    ∧ (getById (updateDocument sharedViewDb "alice" "d1" granteePatch 5).1.documents "d1").map
        (fun r => (r.description, r.status, r.downloadCount, r.updatedAt, r.lastAccessed)) =
      some ("edited by the grantee", "active", 0, 5, 5) := by
  obtain ⟨db2, hupd, hrec2⟩ :=
    update_access_frame_spec sharedViewDb "alice" "d1" granteePatch 5 aliceDoc
      (by decide) (Or.inl rfl) rfl rfl
  constructor
  · rw [hupd]
  · rw [hupd]
    show (getById db2.documents "d1").map
      (fun r => (r.description, r.status, r.downloadCount, r.updatedAt, r.lastAccessed)) =
      some ("edited by the grantee", "active", 0, 5, 5)
    rw [hrec2]
    rfl

/-! ## Claim C4 — upload validation gate -/

/-- C4 (amended): the file check and the minimum-ten-character description rule are
enforced in the Settings upload component's `validateForm`, whose failure makes
`uploadToDatabase` return before any blob write or metadata insert (state unchanged);
an over-5-MiB file fails the file check and a description whose trimmed length is under
10 characters fails the description check, and either failure invalidates the form.
`DocumentService.uploadDocument` itself performs no such validation (see the
counterexample). -/
theorem settingsUpload_validation_spec (db : Db) (uid : String) (file : Option FileInput)
    (dt desc : String) (ts : Nat) (blobOk : Bool) (newId : String) :
    (formValid (validateForm file desc) = false →
      settingsUploadFlow db uid file dt desc ts blobOk newId
        = (db, .rejected (validateForm file desc)))
    ∧ (∀ f : FileInput, (settingsValidateFile (some f)).isValid = false →
        (validateForm (some f) desc).file.isSome = true)
    ∧ ((jsTrim desc).length < 10 → (validateForm file desc).description.isSome = true)
    ∧ (∀ f : FileInput, 5 * 1024 * 1024 < f.size →
        (settingsValidateFile (some f)).isValid = false)
    ∧ (∀ f : FileInput, ((validateForm (some f) desc).file.isSome = true ∨
        (validateForm (some f) desc).description.isSome = true) →
        formValid (validateForm (some f) desc) = false) := by
  refine ⟨?_, ?_, ?_, ?_, ?_⟩
  · intro h
    simp [settingsUploadFlow, h]
  · intro f h
    simp [validateForm, h]
  · intro h
    by_cases he : jsTrim desc == ""
    · simp [validateForm, he]
    · simp only [validateForm, he, Bool.false_eq_true, if_false]
      simp [h]
  · intro f h
    simp [settingsValidateFile, h]
  · intro f h
    rcases h with h | h <;>
      [rcases hf : (validateForm (some f) desc).file with _ | v;
       rcases hf : (validateForm (some f) desc).description with _ | v] <;>
      simp [formValid, hf] <;> simp [hf] at h

/-- C4 counterexample: `DocumentService.uploadDocument` accepts a 6 MiB file with a
2-character description — the blob is written and the metadata row stored with
fileSize 6 MiB and description "ok"; no ValidationError occurs. -/
theorem upload_no_validation_counterexample :
    (uploadDocument emptyDb "alice" sixMiBFile
      { documentType := "other", description := "ok" } 100 true true "d1").2 = .ok "d1"
    ∧ (uploadDocument emptyDb "alice" sixMiBFile
        { documentType := "other", description := "ok" } 100 true true "d1").1.blobPaths.length
      = 1
    ∧ (getById (uploadDocument emptyDb "alice" sixMiBFile
        { documentType := "other", description := "ok" } 100 true true "d1").1.documents
        "d1").map (fun r => (r.fileSize, r.description)) = some (6 * 1024 * 1024, "ok") := by
  exact ⟨rfl, by decide, by decide⟩

/-- C4 witness: through the Settings upload flow, a 6 MiB file with description "ok" is
rejected by validation — both the file check and the length-10 description check fail —
and nothing is written. -/
theorem settingsUpload_validation_spec_witness :
    settingsUploadFlow emptyDb "alice" (some sixMiBFile) "other" "ok" 100 true "d1"
      = (emptyDb, .rejected (validateForm (some sixMiBFile) "ok"))
    ∧ (validateForm (some sixMiBFile) "ok").file.isSome = true
    ∧ (validateForm (some sixMiBFile) "ok").description.isSome = true := by
  obtain ⟨ha, hb, hc, hd, he⟩ :=
    settingsUpload_validation_spec emptyDb "alice" (some sixMiBFile) "other" "ok" 100 true "d1"
  have h1 := hd sixMiBFile (by decide)
  have h2 := hb sixMiBFile h1
  have h3 := hc (by decide)
  exact ⟨ha (he sixMiBFile (Or.inl h2)), h2, h3⟩

/-! ## Claim C9 — listSharedWithMe -/

theorem mem_map_filter_ne (rest : List SharedEntry) (dk d : String) :
    d ∈ (rest.filter (fun x => !(x.documentId == dk))).map (fun e => e.documentId)
      ↔ (d ∈ rest.map (fun e => e.documentId) ∧ d ≠ dk) := by
  simp only [List.mem_map, List.mem_filter, Bool.not_eq_eq_eq_not, Bool.not_true,
    beq_eq_false_iff_ne, ne_eq]
  constructor
  · rintro ⟨x, ⟨hx, hne⟩, rfl⟩
    exact ⟨⟨x, hx, rfl⟩, hne⟩
  · rintro ⟨⟨x, hx, rfl⟩, hne⟩
    exact ⟨x, ⟨hx, hne⟩, rfl⟩

theorem mem_map_dedupByDocumentId (l : List SharedEntry) (d : String) :
    d ∈ (dedupByDocumentId l).map (fun e => e.documentId)
      ↔ d ∈ l.map (fun e => e.documentId) := by
  induction l using dedupByDocumentId.induct with
  | case1 => simp [dedupByDocumentId]
  | case2 e rest ih =>
    rw [dedupByDocumentId]
    by_cases hd : d = e.documentId
    · simp [hd]
    · simp only [List.map_cons, List.mem_cons, ih, mem_map_filter_ne, hd, false_or,
        ne_eq, not_false_iff, and_true]

theorem nodup_map_dedupByDocumentId (l : List SharedEntry) :
    ((dedupByDocumentId l).map (fun e => e.documentId)).Nodup := by
  induction l using dedupByDocumentId.induct with
  | case1 => simp [dedupByDocumentId]
  | case2 e rest ih =>
    rw [dedupByDocumentId]
    simp only [List.map_cons, List.nodup_cons]
    refine ⟨?_, ih⟩
    intro hmem
    have := (mem_map_dedupByDocumentId _ _).mp hmem
    have := (mem_map_filter_ne _ _ _).mp this
    exact this.2 rfl

theorem mem_sharedQuery (db : Db) (target : String) (p : String × ShareRecord) :
    p ∈ sharedQuery db target ↔
      p ∈ db.shares ∧ p.2.sharedWith = target ∧ p.2.status = "active" := by
  simp [sharedQuery, List.mem_mergeSort, List.mem_filter, and_assoc]

theorem mem_map_collectShared (db : Db) (grants : List (String × ShareRecord)) (d : String) :
    d ∈ (collectShared db grants).map (fun e => e.documentId) ↔
      ∃ p ∈ grants, p.2.documentId = d ∧ (getById db.documents p.2.documentId).isSome = true := by
  simp only [collectShared, List.mem_map, List.mem_filterMap, Option.map_eq_some']
  constructor
  · rintro ⟨e, ⟨p, hp, doc, hdoc, he⟩, rfl⟩
    subst he
    exact ⟨p, hp, rfl, by simp [hdoc]⟩
  · rintro ⟨p, hp, rfl, hsome⟩
    rcases Option.isSome_iff_exists.mp hsome with ⟨doc, hdoc⟩
    exact ⟨mkSharedEntry p.1 p.2 doc, ⟨p, hp, doc, hdoc, rfl⟩, rfl⟩

/-- C9: under the reachable-state invariants that every grant row has status 'active'
(the only status `shareDocument` ever writes) and that every grant's document row exists
(documents are soft-deleted, never removed), `getSharedDocuments` returns each shared
documentId exactly once (no duplicates), sorted by grant time descending, and a
documentId appears exactly when some grant for one of the two identifiers names it; the
function reads the state without modifying it, so a repeated query returns the same
result. -/
theorem getSharedDocuments_spec (db : Db) (userEmail userAadhaar : String)
    (hactive : ∀ p ∈ db.shares, p.2.status = "active")
    (hdocs : ∀ p ∈ db.shares, (getById db.documents p.2.documentId).isSome = true) :
    ((getSharedDocuments db userEmail userAadhaar).map (fun e => e.documentId)).Nodup
    ∧ (getSharedDocuments db userEmail userAadhaar).Pairwise
        (fun a b => b.sharedAt ≤ a.sharedAt)
    ∧ (∀ d, d ∈ (getSharedDocuments db userEmail userAadhaar).map (fun e => e.documentId) ↔
        ∃ p ∈ db.shares,
          (p.2.sharedWith = userEmail ∨ p.2.sharedWith = userAadhaar)
            ∧ p.2.documentId = d) := by
  refine ⟨?_, ?_, ?_⟩
  · have hperm : List.Perm
        ((getSharedDocuments db userEmail userAadhaar).map (fun e => e.documentId))
        ((dedupByDocumentId (collectShared db (sharedQuery db userEmail)
            ++ collectShared db (sharedQuery db userAadhaar))).map (fun e => e.documentId)) :=
      (List.mergeSort_perm _ _).map _
    exact hperm.nodup_iff.mpr (nodup_map_dedupByDocumentId _)
  · have hs := @List.sorted_mergeSort SharedEntry
      (fun a b : SharedEntry => decide (b.sharedAt ≤ a.sharedAt))
      (fun a b c hab hbc => by
        simp only [decide_eq_true_eq] at *
        omega)
      (fun a b => by
        simp only [Bool.or_eq_true, decide_eq_true_eq]
        omega)
      (dedupByDocumentId (collectShared db (sharedQuery db userEmail)
        ++ collectShared db (sharedQuery db userAadhaar)))
    exact hs.imp (fun hab => of_decide_eq_true hab)
  · intro d
    have hperm : List.Perm
        ((getSharedDocuments db userEmail userAadhaar).map (fun e => e.documentId))
        ((dedupByDocumentId (collectShared db (sharedQuery db userEmail)
            ++ collectShared db (sharedQuery db userAadhaar))).map (fun e => e.documentId)) :=
      (List.mergeSort_perm _ _).map _
    rw [hperm.mem_iff, mem_map_dedupByDocumentId, List.map_append, List.mem_append,
      mem_map_collectShared, mem_map_collectShared]
    constructor
    · rintro (⟨p, hp, hpd, hsome⟩ | ⟨p, hp, hpd, hsome⟩)
      · exact ⟨p, ((mem_sharedQuery db userEmail p).mp hp).1,
          Or.inl ((mem_sharedQuery db userEmail p).mp hp).2.1, hpd⟩
      · exact ⟨p, ((mem_sharedQuery db userAadhaar p).mp hp).1,
          Or.inr ((mem_sharedQuery db userAadhaar p).mp hp).2.1, hpd⟩
    · rintro ⟨p, hp, htarget | htarget, hpd⟩
      · exact Or.inl ⟨p, (mem_sharedQuery db userEmail p).mpr ⟨hp, htarget, hactive p hp⟩,
          hpd, hpd ▸ hdocs p hp⟩
      · exact Or.inr ⟨p, (mem_sharedQuery db userAadhaar p).mpr ⟨hp, htarget, hactive p hp⟩,
          hpd, hpd ▸ hdocs p hp⟩

/-- C9 witness: with alice's document shared once with b@example.com at
permission=download, the shared list for ("b@example.com", "") contains the document,
contains no duplicate documentIds, and is sorted by grant time. -/
theorem getSharedDocuments_spec_witness :
    ((getSharedDocuments sharedDownloadDb "b@example.com" "").map (fun e => e.documentId)).Nodup
    ∧ "d1" ∈ (getSharedDocuments sharedDownloadDb "b@example.com" "").map
        (fun e => e.documentId)
    ∧ (getSharedDocuments sharedDownloadDb "b@example.com" "").Pairwise
        (fun a b => b.sharedAt ≤ a.sharedAt) := by
  obtain ⟨hnodup, hsorted, hmem⟩ :=
    getSharedDocuments_spec sharedDownloadDb "b@example.com" "" (by decide) (by decide)
  exact ⟨hnodup,
    (hmem "d1").mpr ⟨("s1", downloadGrant), by decide, Or.inl (by decide), by decide⟩,
    hsorted⟩

/-! ## Claim C3 — Verhoeff checksum -/

theorem verhoeff_dTab_lt_aux : ∀ c ∈ List.range 10, ∀ v ∈ List.range 10, dTab c v < 10 := by
  decide

theorem verhoeff_pTab_lt_aux : ∀ k ∈ List.range 8, ∀ v ∈ List.range 10, pTab k v < 10 := by
  decide

theorem verhoeff_step_inj_aux : ∀ c ∈ List.range 10, ∀ k ∈ List.range 8,
    ∀ v ∈ List.range 10, ∀ w ∈ List.range 10,
    v ≠ w → dTab c (pTab k v) ≠ dTab c (pTab k w) := by decide

theorem verhoeff_state_inj_aux : ∀ c ∈ List.range 10, ∀ c2 ∈ List.range 10,
    c ≠ c2 → ∀ v ∈ List.range 10, dTab c v ≠ dTab c2 v := by decide

theorem dTab_lt {c v : Nat} (hc : c < 10) (hv : v < 10) : dTab c v < 10 :=
  verhoeff_dTab_lt_aux c (List.mem_range.mpr hc) v (List.mem_range.mpr hv)

theorem pTab_lt {k v : Nat} (hk : k < 8) (hv : v < 10) : pTab k v < 10 :=
  verhoeff_pTab_lt_aux k (List.mem_range.mpr hk) v (List.mem_range.mpr hv)

theorem verhoeff_step_inj {c k v w : Nat} (hc : c < 10) (hk : k < 8) (hv : v < 10)
    (hw : w < 10) (hne : v ≠ w) : dTab c (pTab k v) ≠ dTab c (pTab k w) :=
  verhoeff_step_inj_aux c (List.mem_range.mpr hc) k (List.mem_range.mpr hk)
    v (List.mem_range.mpr hv) w (List.mem_range.mpr hw) hne

theorem verhoeff_state_inj {c c2 v : Nat} (hc : c < 10) (hc2 : c2 < 10) (hne : c ≠ c2)
    (hv : v < 10) : dTab c v ≠ dTab c2 v :=
  verhoeff_state_inj_aux c (List.mem_range.mpr hc) c2 (List.mem_range.mpr hc2) hne
    v (List.mem_range.mpr hv)

theorem verhoeffGo_lt (l : List Nat) : ∀ i c, c < 10 → (∀ x ∈ l, x < 10) →
    verhoeffGo i c l < 10 := by
  induction l with
  | nil => intro i c hc _; exact hc
  | cons v rest ih =>
    intro i c hc hl
    exact ih (i + 1) _
      (dTab_lt hc (pTab_lt (Nat.mod_lt _ (by omega)) (hl v (List.mem_cons_self v rest))))
      (fun x hx => hl x (List.mem_cons_of_mem _ hx))

theorem verhoeffGo_inj (l : List Nat) : ∀ i c c2, c < 10 → c2 < 10 → c ≠ c2 →
    (∀ x ∈ l, x < 10) → verhoeffGo i c l ≠ verhoeffGo i c2 l := by
  induction l with
  | nil => intro i c c2 _ _ hne _; exact hne
  | cons v rest ih =>
    intro i c c2 hc hc2 hne hl
    have hv : v < 10 := hl v (List.mem_cons_self v rest)
    have hp : pTab (i % 8) v < 10 := pTab_lt (Nat.mod_lt _ (by omega)) hv
    exact ih (i + 1) _ _ (dTab_lt hc hp) (dTab_lt hc2 hp)
      (verhoeff_state_inj hc hc2 hne hp)
      (fun x hx => hl x (List.mem_cons_of_mem _ hx))

theorem verhoeffGo_append (xs ys : List Nat) : ∀ i c,
    verhoeffGo i c (xs ++ ys) = verhoeffGo (i + xs.length) (verhoeffGo i c xs) ys := by
  induction xs with
  | nil => intro i c; simp [verhoeffGo]
  | cons v xs ih =>
    intro i c
    show verhoeffGo (i + 1) (dTab c (pTab (i % 8) v)) (xs ++ ys) = _
    rw [ih]
    have h : i + 1 + xs.length = i + (xs.length + 1) := by omega
    rw [h]
    rfl

theorem verhoeff_single_digit (pre suf : List Nat) (v w : Nat)
    (hpre : ∀ x ∈ pre, x < 10) (hsuf : ∀ x ∈ suf, x < 10) (hv : v < 10) (hw : w < 10)
    (hne : v ≠ w) :
    verhoeffChecksum (pre ++ v :: suf) ≠ verhoeffChecksum (pre ++ w :: suf) := by
  have hrev : ∀ u : Nat, (pre ++ u :: suf).reverse = suf.reverse ++ (u :: pre.reverse) := by
    intro u
    simp [List.reverse_append]
  have hsufrev : ∀ x ∈ suf.reverse, x < 10 := fun x hx => hsuf x (List.mem_reverse.mp hx)
  have hprerev : ∀ x ∈ pre.reverse, x < 10 := fun x hx => hpre x (List.mem_reverse.mp hx)
  have hc0 : verhoeffGo 0 0 suf.reverse < 10 := verhoeffGo_lt _ 0 0 (by omega) hsufrev
  have hk : (0 + suf.reverse.length) % 8 < 8 := Nat.mod_lt _ (by omega)
  unfold verhoeffChecksum
  rw [hrev v, hrev w, verhoeffGo_append, verhoeffGo_append]
  show verhoeffGo _ (dTab _ (pTab _ v)) pre.reverse ≠ verhoeffGo _ (dTab _ (pTab _ w)) pre.reverse
  exact verhoeffGo_inj pre.reverse _ _ _
    (dTab_lt hc0 (pTab_lt hk hv)) (dTab_lt hc0 (pTab_lt hk hw))
    (verhoeff_step_inj hc0 hk hv hw hne) hprerev

theorem charDigit_bounds {a : Char} (ha : a.isDigit = true) :
    48 ≤ a.toNat ∧ a.toNat ≤ 57 := by
  simpa [Char.isDigit] using ha

theorem charDigit_lt {a : Char} (ha : a.isDigit = true) : charDigit a < 10 := by
  have := charDigit_bounds ha
  unfold charDigit
  omega

theorem charDigit_inj {a b : Char} (ha : a.isDigit = true) (hb : b.isDigit = true)
    (hne : a ≠ b) : charDigit a ≠ charDigit b := by
  intro h
  apply hne
  have h1 := charDigit_bounds ha
  have h2 := charDigit_bounds hb
  have htn : a.toNat = b.toNat := by
    unfold charDigit at h
    omega
  have hv : a.val = b.val := by
    unfold Char.toNat at htn
    exact UInt32.toNat.inj htn
  exact Char.ext hv

/-- C3: `validateAadhaar` (modelled from the spec, see `validateAadhaar`) accepts a
12-digit numeric string exactly when the reverse-order Verhoeff checksum over the
standard tables ends at 0; and for any accepted string, changing exactly one digit
(same position, different digit character) yields a string that is rejected. -/
theorem validateAadhaar_spec :
    (∀ s : String, s.length = 12 → s.data.all Char.isDigit = true →
      (validateAadhaar s = true ↔ verhoeffChecksum (s.data.map charDigit) = 0))
    ∧ (∀ (pre suf : List Char) (v w : Char),
        (∀ c ∈ pre, c.isDigit = true) → (∀ c ∈ suf, c.isDigit = true) →
        v.isDigit = true → w.isDigit = true → v ≠ w →
        validateAadhaar (String.mk (pre ++ v :: suf)) = true →
        validateAadhaar (String.mk (pre ++ w :: suf)) = false) := by
  constructor
  · intro s hlen hdig
    simp [validateAadhaar, hlen, hdig]
  · intro pre suf v w hpre hsuf hv hw hne hval
    simp only [validateAadhaar, Bool.and_eq_true, beq_iff_eq] at hval
    obtain ⟨⟨hlen1, hdig1⟩, hsum1⟩ := hval
    rw [List.map_append, List.map_cons] at hsum1
    have hsum2 : verhoeffChecksum (pre.map charDigit ++ charDigit w :: suf.map charDigit)
        ≠ 0 := by
      intro h0
      exact verhoeff_single_digit (pre.map charDigit) (suf.map charDigit)
        (charDigit v) (charDigit w)
        (by
          intro x hx
          rcases List.mem_map.mp hx with ⟨c, hc, rfl⟩
          exact charDigit_lt (hpre c hc))
        (by
          intro x hx
          rcases List.mem_map.mp hx with ⟨c, hc, rfl⟩
          exact charDigit_lt (hsuf c hc))
        (charDigit_lt hv) (charDigit_lt hw) (charDigit_inj hv hw hne)
        (hsum1.trans h0.symm)
    have hbeq : (verhoeffChecksum ((pre ++ w :: suf).map charDigit) == 0) = false := by
      rw [List.map_append, List.map_cons]
      exact beq_eq_false_iff_ne.mpr hsum2
    show (((String.mk (pre ++ w :: suf)).length == 12
        && (pre ++ w :: suf).all Char.isDigit)
        && (verhoeffChecksum ((pre ++ w :: suf).map charDigit) == 0)) = false
    rw [hbeq, Bool.and_false]

/-- C3 witness: "123456789010" satisfies the Verhoeff relation and is accepted; flipping
its first digit from 1 to 2 yields "223456789010", which is rejected. -/
theorem validateAadhaar_spec_witness :
    validateAadhaar "123456789010" = true ∧ validateAadhaar "223456789010" = false := by
  obtain ⟨ha, hb⟩ := validateAadhaar_spec
  refine ⟨(ha "123456789010" (by decide) (by decide)).mpr (by decide), ?_⟩
  have hflip := hb [] "23456789010".data '1' '2' (by decide) (by decide) (by decide)
    (by decide) (by decide) (by decide)
  have hlit : String.mk ([] ++ '2' :: "23456789010".data) = "223456789010" := by decide
  rw [← hlit]
  exact hflip
